import Mathlib

/-!
Shallow embedding of `src/common/js/pub.js` (`create_manifest` and its
local helpers `is_relative`, `image_type`, `uniq`), together with proofs
about the manifest-building transformation.

The document is modelled through the views the code queries: the
`a.u-url` element, the `time.dt-published` element, presence of a
`span.orcid` element, and the node lists returned by
`querySelectorAll` for `object`, `img`, `a` and `script`.  Elements are
modelled by their attribute lists; `getAttribute` returns `none` for an
absent attribute, mirroring the `null` return in JS.  JS string
primitives (`startsWith`, `endsWith`, `toUpperCase`, `toLowerCase`) are
modelled over the character list of the string so that all definitions
evaluate by `decide` / `rfl`.
-/

namespace Pub

/-- Model of the JS `String.prototype.startsWith` used in `pub.js`. -/
def js_startsWith (s p : String) : Bool :=
  p.data.isPrefixOf s.data

/-- Model of the JS `String.prototype.endsWith` used in `pub.js`. -/
def js_endsWith (s p : String) : Bool :=
  p.data.isSuffixOf s.data

/-- Model of the JS `String.prototype.toUpperCase` (ASCII range suffices here). -/
def js_toUpperCase (s : String) : String :=
  ⟨s.data.map Char.toUpper⟩

/-- Model of the JS `String.prototype.toLowerCase` (ASCII range suffices here). -/
def js_toLowerCase (s : String) : String :=
  ⟨s.data.map Char.toLower⟩

/-- JS truthiness for an attribute value: `null` and the empty string are falsy. -/
def truthy : Option String → Bool
  | none => false
  | some s => s ≠ ""

/-- Model of the JS `a || b` on attribute-valued expressions: returns `a`
when `a` is truthy, otherwise `b`. -/
def jsOr (a b : Option String) : Option String :=
  if truthy a then a else b

/-- Guard `if (v) ...`: keep an optional string only when it is truthy. -/
def keepTruthy (a : Option String) : Option String :=
  if truthy a then a else none

/-- Model of `is_relative` from `pub.js` lines 13-16: a URL is relative
unless its first character is a `#` or it starts with one of the three
listed schemes.  `url[0] === '#'` is modelled by inspecting the head of
the character list (for the empty string, JS compares `undefined` with
a character and gets `false`, matching `head? = none` here). -/
def is_relative (url : String) : Bool :=
  !(url.data.head? == some '#' || js_startsWith url "http://" ||
    js_startsWith url "https://" || js_startsWith url "mailto:")

/-- Model of `image_type` from `pub.js` lines 18-34: file-extension
sniffing for a MIME type, `none` standing for the JS `null`. -/
def image_type (img : String) : Option String :=
  if js_endsWith img ".gif" then some "image/gif"
  else if js_endsWith img ".png" then some "image/png"
  else if js_endsWith img ".bmp" then some "image/bmp"
  else if js_endsWith img ".jpg" || js_endsWith img ".jpeg" then some "image/jpeg"
  else if js_endsWith img ".svg" then some "image/svg+xml"
  else if js_endsWith img ".pdf" then some "application/pdf"
  else none

/-- A `LinkedResource` record as pushed on `manifest.resources` /
`manifest.links`; absent JS fields are `none`. -/
structure LinkedResource where
  type : String := "LinkedResource"
  url : String
  rel : Option String := none
  encodingFormat : Option String := none
  description : Option String := none
deriving DecidableEq, Repr

/-- Model of `uniq` from `pub.js` lines 36-48: the `filter` with a
mutable `buffer` of already-seen urls, written as explicit recursion on
the list with the buffer threaded through. -/
def uniqAux (buffer : List String) : List LinkedResource → List LinkedResource
  | [] => []
  | entry :: rest =>
    if entry.url ∈ buffer then
      uniqAux buffer rest
    else
      entry :: uniqAux (buffer ++ [entry.url]) rest

/-- `uniq` starts the filtering with an empty buffer. -/
def uniq (arr : List LinkedResource) : List LinkedResource :=
  uniqAux [] arr

/-- A DOM element, modelled by its attribute list; `getAttribute`
returns the first binding, `none` for an absent attribute. -/
structure Element where
  attrs : List (String × String)
deriving DecidableEq, Repr

def Element.getAttribute (e : Element) (name : String) : Option String :=
  (e.attrs.find? (fun p => p.1 = name)).map Prod.snd

/-- Per-element processing of `querySelectorAll("object")` elements,
`pub.js` lines 229-242: when the `data` attribute is truthy and the
reference is relative, build a `LinkedResource` whose `encodingFormat`
is the `type` attribute or, failing that, the sniffed image type. -/
def scanObject (e : Element) : Option LinkedResource :=
  match e.getAttribute "data" with
  | none => none
  | some href =>
    if href ≠ "" && is_relative href then
      some { url := href,
             encodingFormat := keepTruthy (jsOr (e.getAttribute "type") (image_type href)) }
    else none

/-- Per-element processing of `querySelectorAll("img")` elements,
`pub.js` lines 243-260: the `encodingFormat` comes from `image_type`
alone, and a truthy `alt` attribute becomes the `description`. -/
def scanImg (e : Element) : Option LinkedResource :=
  match e.getAttribute "src" with
  | none => none
  | some href =>
    if href ≠ "" && is_relative href then
      some { url := href,
             encodingFormat := keepTruthy (image_type href),
             description := keepTruthy (e.getAttribute "alt") }
    else none

/-- Per-element processing of `querySelectorAll("a")` elements,
`pub.js` lines 261-282: `type` attribute or sniffed image type for
`encodingFormat`, and truthy `rel` / `title` attributes copied into
`rel` / `description`. -/
def scanA (e : Element) : Option LinkedResource :=
  match e.getAttribute "href" with
  | none => none
  | some href =>
    if href ≠ "" && is_relative href then
      some { url := href,
             encodingFormat := keepTruthy (jsOr (e.getAttribute "type") (image_type href)),
             rel := keepTruthy (e.getAttribute "rel"),
             description := keepTruthy (e.getAttribute "title") }
    else none

/-- Per-element processing of `querySelectorAll("script")` elements,
`pub.js` lines 283-302.  Elements whose `class` attribute is exactly
`"remove"` are skipped.  For a `.js`-suffixed relative source the
resource gets the fixed MIME type; otherwise the code executes
`manifest.encodingFormat = type` (line 296), an assignment to the
manifest object itself, not to the resource being built — the second
component of the result records that stray assignment. -/
def scanScript (e : Element) : Option LinkedResource × Option String :=
  if e.getAttribute "class" = some "remove" then (none, none)
  else
    match e.getAttribute "src" with
    | none => (none, none)
    | some href =>
      if href ≠ "" && is_relative href then
        if js_endsWith href ".js" then
          (some { url := href, encodingFormat := some "application/Javascript" }, none)
        else
          (some { url := href }, keepTruthy (e.getAttribute "type"))
      else (none, none)

/-- Folding the script scan over the node list: resources accumulate in
order, and each stray `manifest.encodingFormat` assignment overwrites
the previous one. -/
def scanScripts (scripts : List Element) : List LinkedResource × Option String :=
  scripts.foldl
    (fun acc e =>
      let r := scanScript e
      (acc.1 ++ r.1.toList, match r.2 with | some t => some t | none => acc.2))
    ([], none)

/-- A person record of the respec configuration (`§6` shape:
`name` required, `url`, `company`, `companyURL` optional). -/
structure Person where
  name : String
  url : Option String := none
  company : Option String := none
  companyURL : Option String := none
deriving DecidableEq, Repr

/-- The respec configuration record, as consumed by `create_manifest`. -/
structure Config where
  shortName : String
  specStatus : String
  editors : Option (List Person) := none
  authors : Option (List Person) := none
  creators : Option (List Person) := none
deriving DecidableEq, Repr

/-- The nested `affiliation` Organization object built for each person. -/
structure Affiliation where
  type : String := "Organization"
  name : Option String := none
  url : Option String := none
deriving DecidableEq, Repr

/-- A schema.org Person entry of the manifest. -/
structure PersonEntry where
  type : String := "Person"
  name : String
  id : Option String := none
  affiliation : Affiliation
deriving DecidableEq, Repr

/-- The mapping of one configured person record to a manifest Person
entry, `pub.js` lines 124-134. -/
def person_to_entry (person : Person) : PersonEntry :=
  { name := person.name,
    id := person.url,
    affiliation := { name := person.company, url := person.companyURL } }

/-- The document tree, modelled through the views queried by the code:
the two required marker elements (absent element = `none`), the ToC
landmark and ORCID marker presence, and the four scanned node lists in
document order. -/
structure Document where
  hasTocNav : Bool := false
  uUrl : Option Element := none
  dtPublished : Option Element := none
  hasOrcidSpan : Bool := false
  objects : List Element := []
  imgs : List Element := []
  anchors : List Element := []
  scripts : List Element := []
deriving DecidableEq, Repr

/-- The output manifest record; field order follows JS property
insertion order.  The trailing `encodingFormat` slot is the one written
by the stray assignment on `pub.js` line 296. -/
structure Manifest where
  context : List String
  type : String
  accessMode : List String
  accessModeSufficient : List String
  resources : List LinkedResource
  links : List LinkedResource
  id : String
  url : Option String
  datePublished : Option String
  editor : Option (List PersonEntry) := none
  author : Option (List PersonEntry) := none
  creator : Option (List PersonEntry) := none
  encodingFormat : Option String := none
deriving DecidableEq, Repr

/-- The two baseline resources (W3C logo, base stylesheet), `pub.js`
lines 77-88. -/
def baseResources : List LinkedResource :=
  [{ url := "https://www.w3.org/StyleSheets/TR/2016/logos/W3C",
     encodingFormat := some "image/svg+xml",
     description := some "W3C Logo" },
   { url := "https://www.w3.org/StyleSheets/TR/2016/base.css",
     rel := some "stylesheet",
     encodingFormat := some "text/css",
     description := some "Generic CSS file for W3C TR documents" }]

/-- The three baseline links (privacy, license, copyright), `pub.js`
lines 90-105. -/
def baseLinks : List LinkedResource :=
  [{ url := "https://www.w3.org/Consortium/Legal/privacy-statement-20140324",
     encodingFormat := some "text/html",
     rel := some "privacy-policy" },
   { url := "https://www.w3.org/Consortium/Legal/2015/copyright-software-and-document",
     encodingFormat := some "text/html",
     rel := some "license describedby" },
   { url := "http://www.w3.org/Consortium/Legal/ipr-notice#Copyright",
     encodingFormat := some "text/html",
     rel := some "copyright" }]

/-- Outcome of the `switch(config.specStatus.toUpperCase())` dispatch,
`pub.js` lines 140-181: the values of the four local variables after
the switch. -/
structure StatusStyle where
  styleFile : Option String
  logoFile : Option String
  logoFormat : String
  watermark : Option String
deriving DecidableEq, Repr

/-- The `specStatus` case dispatch itself.  The switch starts from
`styleFile = "W3C-"`, `logoFile = undefined`,
`logoFormat = "image/svg+xml"`, `watermark = undefined` and each branch
overwrites some of them. -/
def status_dispatch (specStatus : String) : StatusStyle :=
  let u := js_toUpperCase specStatus
  if u = "CG-DRAFT" ∨ u = "CG-FINAL" ∨ u = "BG-DRAFT" ∨ u = "BG-FINAL" then
    let sf := js_toLowerCase specStatus
    { styleFile := some sf, logoFile := some ("back-" ++ sf ++ ".png"),
      logoFormat := "image/png", watermark := none }
  else if u = "FPWD" ∨ u = "LC" ∨ u = "WD-NOTE" ∨ u = "LC-NOTE" then
    { styleFile := some "W3C-WD", logoFile := some "WD",
      logoFormat := "image/svg+xml", watermark := none }
  else if u = "WG-NOTE" ∨ u = "FPWD-NOTE" then
    { styleFile := some "W3C-WG-NOTE", logoFile := some "WG-Note",
      logoFormat := "image/svg+xml", watermark := none }
  else if u = "UNOFFICIAL" then
    { styleFile := some "W3C-UD", logoFile := some "UD.png",
      logoFormat := "image/png", watermark := some "UD-watermark.png" }
  else if u = "FINDING" ∨ u = "FINDING-DRAFT" ∨ u = "BASE" then
    { styleFile := none, logoFile := none,
      logoFormat := "image/svg+xml", watermark := none }
  else
    { styleFile := some ("W3C-" ++ u), logoFile := some u,
      logoFormat := "image/svg+xml", watermark := none }

/-- The resources pushed after the switch (`pub.js` lines 183-209): one
per defined `styleFile` / `logoFile` / `watermark`, in that order. -/
def statusResources (specStatus : String) : List LinkedResource :=
  let st := status_dispatch specStatus
  (match st.styleFile with
   | none => []
   | some sf =>
     [{ url := "https://www.w3.org/StyleSheets/TR/2016/" ++ sf,
        rel := some "stylesheet",
        encodingFormat := some "text/css",
        description := some "CSS file depending on the status of the document" }]) ++
  (match st.logoFile with
   | none => []
   | some lf =>
     [{ url := "https://www.w3.org/StyleSheets/TR/2016/logos/" ++ lf,
        encodingFormat := some st.logoFormat,
        description := some "Sidebar logo reflecting the status of the document" }]) ++
  (match st.watermark with
   | none => []
   | some wm =>
     [{ url := "https://www.w3.org/StyleSheets/TR/2016/logos/" ++ wm,
        encodingFormat := some "image/png",
        description := some "Background watermark reflecting the status of the document" }])

/-- The ORCID logo resource appended when a `span.orcid` element exists,
`pub.js` lines 212-219. -/
def orcidResources (d : Document) : List LinkedResource :=
  if d.hasOrcidSpan then
    [{ url := "images/orcid.gif",
       encodingFormat := some "image/gif",
       description := some "ORCID logo" }]
  else []

/-- The full `manifest.resources` list as accumulated by the pushes,
before the final `uniq` on `pub.js` line 304. -/
def rawResources (config : Config) (d : Document) : List LinkedResource :=
  baseResources ++ statusResources config.specStatus ++ orcidResources d ++
  d.objects.filterMap scanObject ++ d.imgs.filterMap scanImg ++
  d.anchors.filterMap scanA ++ (scanScripts d.scripts).1

/-- Construction of the manifest record once the two required marker
elements have been found (the total part of `create_manifest`). -/
def build_manifest (config : Config) (d : Document) (uEl tEl : Element) : Manifest :=
  { context := ["https://schema.org", "https://www.w3.org/ns/pub-context"],
    type := "TechArticle",
    accessMode := ["textual", "diagramOnVisual"],
    accessModeSufficient := ["textual"],
    resources := uniq (rawResources config d),
    links := baseLinks,
    id := "https://www.w3.org/TR/" ++ config.shortName ++ "/",
    url := uEl.getAttribute "href",
    datePublished := tEl.getAttribute "datetime",
    editor := config.editors.map (fun ps => ps.map person_to_entry),
    author := config.authors.map (fun ps => ps.map person_to_entry),
    creator := config.creators.map (fun ps => ps.map person_to_entry),
    encodingFormat := (scanScripts d.scripts).2 }

/-- Model of `create_manifest` (`pub.js` lines 6-329) as a fallible
function from configuration and document to the manifest record.  The
code calls `.getAttribute` on the results of
`document.querySelector("a.u-url")` and
`document.querySelector("time.dt-published")` without a null check, so
a missing marker element raises a `TypeError`; everything else is
total. -/
def create_manifest (config : Config) (d : Document) : Except String Manifest :=
  match d.uUrl with
  | none => .error "TypeError: document.querySelector is null at a.u-url"
  | some uEl =>
    match d.dtPublished with
    | none => .error "TypeError: document.querySelector is null at time.dt-published"
    | some tEl => .ok (build_manifest config d uEl tEl)

/-- JSON string escaping (quotes and backslashes; the inputs here never
contain control characters). -/
def jsonEscape (s : String) : String :=
  ⟨s.data.flatMap (fun c =>
    if c = '\"' then ['\\', '\"']
    else if c = '\\' then ['\\', '\\']
    else [c])⟩

def jsonString (s : String) : String :=
  "\"" ++ jsonEscape s ++ "\""

/-- One serialized object member, or nothing for an absent field. -/
def jsonOptMember (key : String) (v : Option String) : List String :=
  match v with
  | none => []
  | some s => [jsonString key ++ ": " ++ jsonString s]

def jsonObject (members : List String) : String :=
  "\x7b" ++ String.intercalate ", " members ++ "\x7d"

def jsonArray (items : List String) : String :=
  "[" ++ String.intercalate ", " items ++ "]"

/-- Serialization of one `LinkedResource`. -/
def serialize_resource (r : LinkedResource) : String :=
  jsonObject
    ([jsonString "type" ++ ": " ++ jsonString r.type,
      jsonString "url" ++ ": " ++ jsonString r.url] ++
     jsonOptMember "rel" r.rel ++
     jsonOptMember "encodingFormat" r.encodingFormat ++
     jsonOptMember "description" r.description)

/-- Serialization of one Person entry. -/
def serialize_person (p : PersonEntry) : String :=
  jsonObject
    ([jsonString "type" ++ ": " ++ jsonString p.type,
      jsonString "name" ++ ": " ++ jsonString p.name] ++
     jsonOptMember "id" p.id ++
     [jsonString "affiliation" ++ ": " ++
      jsonObject
        ([jsonString "type" ++ ": " ++ jsonString p.affiliation.type] ++
         jsonOptMember "name" p.affiliation.name ++
         jsonOptMember "url" p.affiliation.url)])

def jsonOptNullMember (key : String) (v : Option String) : String :=
  match v with
  | none => jsonString key ++ ": null"
  | some s => jsonString key ++ ": " ++ jsonString s

def jsonOptPersons (key : String) (v : Option (List PersonEntry)) : List String :=
  match v with
  | none => []
  | some ps => [jsonString key ++ ": " ++ jsonArray (ps.map serialize_person)]

/-- Model of `JSON.stringify(manifest, null, 4)` up to whitespace: a
deterministic textual rendering of the manifest record, members in JS
property insertion order.  `getAttribute` results that are JS `null`
serialize as `null` members, matching `JSON.stringify`. -/
def serialize_manifest (m : Manifest) : String :=
  jsonObject
    ([jsonString "@context" ++ ": " ++ jsonArray (m.context.map jsonString),
      jsonString "type" ++ ": " ++ jsonString m.type,
      jsonString "accessMode" ++ ": " ++ jsonArray (m.accessMode.map jsonString),
      jsonString "accessModeSufficient" ++ ": " ++
        jsonArray (m.accessModeSufficient.map jsonString),
      jsonString "resources" ++ ": " ++ jsonArray (m.resources.map serialize_resource),
      jsonString "links" ++ ": " ++ jsonArray (m.links.map serialize_resource),
      jsonString "id" ++ ": " ++ jsonString m.id,
      jsonOptNullMember "url" m.url,
      jsonOptNullMember "datePublished" m.datePublished] ++
     jsonOptPersons "editor" m.editor ++
     jsonOptPersons "author" m.author ++
     jsonOptPersons "creator" m.creator ++
     jsonOptMember "encodingFormat" m.encodingFormat)

/-- The arguments on which one call site invokes `is_relative`: the JS
guard `href && is_relative(href)` short-circuits, so the classifier is
called exactly when the attribute is present and non-empty. -/
def classifierCallsOfAttr (v : Option String) : List String :=
  match v with
  | none => []
  | some href => if href ≠ "" then [href] else []

/-- All arguments passed to `is_relative` during the four scan loops,
in execution order (`pub.js` lines 229-302); scripts whose `class` is
`"remove"` never reach the guard. -/
def classifierCalls (d : Document) : List String :=
  (d.objects.flatMap (fun e => classifierCallsOfAttr (e.getAttribute "data"))) ++
  (d.imgs.flatMap (fun e => classifierCallsOfAttr (e.getAttribute "src"))) ++
  (d.anchors.flatMap (fun e => classifierCallsOfAttr (e.getAttribute "href"))) ++
  ((d.scripts.filter (fun e => e.getAttribute "class" ≠ some "remove")).flatMap
    (fun e => classifierCallsOfAttr (e.getAttribute "src")))

/-!
Helper lemmas about `uniq`: every survivor is the first entry of the
input carrying its url, survivors keep their input order, every input
url is represented, and the surviving urls are pairwise distinct.
-/

theorem uniqAux_mem_spec (l : List LinkedResource) :
    ∀ buffer y, y ∈ uniqAux buffer l →
      y.url ∉ buffer ∧ l.find? (fun x => x.url == y.url) = some y := by
  induction l with
  | nil => intro buffer y h; simp [uniqAux] at h
  | cons e rest ih =>
    intro buffer y h
    simp only [uniqAux] at h
    by_cases he : e.url ∈ buffer
    · rw [if_pos he] at h
      obtain ⟨hnb, hfind⟩ := ih buffer y h
      have hne : (e.url == y.url) = false := by
        simp only [beq_eq_false_iff_ne]
        intro hc; rw [hc] at he; exact hnb he
      exact ⟨hnb, by simp [List.find?, hne, hfind]⟩
    · rw [if_neg he] at h
      rcases List.mem_cons.mp h with rfl | h
      · exact ⟨he, by simp [List.find?]⟩
      · obtain ⟨hnb, hfind⟩ := ih (buffer ++ [e.url]) y h
        have hyb : y.url ∉ buffer := fun hc => hnb (List.mem_append.mpr (Or.inl hc))
        have hne : (e.url == y.url) = false := by
          simp only [beq_eq_false_iff_ne]
          intro hc
          exact hnb (List.mem_append.mpr (Or.inr (by simp [hc])))
        exact ⟨hyb, by simp [List.find?, hne, hfind]⟩

theorem uniqAux_sublist (l : List LinkedResource) :
    ∀ buffer, List.Sublist (uniqAux buffer l) l := by
  induction l with
  | nil => intro buffer; simp [uniqAux]
  | cons e rest ih =>
    intro buffer
    simp only [uniqAux]
    by_cases he : e.url ∈ buffer
    · rw [if_pos he]; exact (ih buffer).cons e
    · rw [if_neg he]; exact (ih (buffer ++ [e.url])).cons₂ e

theorem uniqAux_covers (l : List LinkedResource) :
    ∀ buffer x, x ∈ l →
      x.url ∈ buffer ∨ ∃ y ∈ uniqAux buffer l, y.url = x.url := by
  induction l with
  | nil => intro _ x h; cases h
  | cons e rest ih =>
    intro buffer x hx
    simp only [uniqAux]
    by_cases he : e.url ∈ buffer
    · rw [if_pos he]
      rcases List.mem_cons.mp hx with rfl | hx
      · exact Or.inl he
      · exact ih buffer x hx
    · rw [if_neg he]
      rcases List.mem_cons.mp hx with rfl | hx
      · exact Or.inr ⟨x, List.mem_cons_self x _, rfl⟩
      · rcases ih (buffer ++ [e.url]) x hx with hb | ⟨y, hy, hyu⟩
        · rcases List.mem_append.mp hb with hb | hb
          · exact Or.inl hb
          · have hxe : x.url = e.url := by simpa using hb
            exact Or.inr ⟨e, List.mem_cons_self e _, hxe.symm⟩
        · exact Or.inr ⟨y, List.mem_cons_of_mem e hy, hyu⟩

theorem uniqAux_nodup (l : List LinkedResource) :
    ∀ buffer, ((uniqAux buffer l).map LinkedResource.url).Nodup := by
  induction l with
  | nil => intro buffer; simp [uniqAux]
  | cons e rest ih =>
    intro buffer
    simp only [uniqAux]
    by_cases he : e.url ∈ buffer
    · rw [if_pos he]; exact ih buffer
    · rw [if_neg he]
      simp only [List.map_cons, List.nodup_cons]
      refine ⟨?_, ih (buffer ++ [e.url])⟩
      intro hc
      obtain ⟨y, hy, hyu⟩ := List.mem_map.mp hc
      have := (uniqAux_mem_spec rest (buffer ++ [e.url]) y hy).1
      exact this (List.mem_append.mpr (Or.inr (by simp [hyu])))

/-- Concrete marker elements and configurations used to instantiate the
theorems below on closed inputs. -/
def egUrlEl : Element := ⟨[("href", "https://www.w3.org/TR/short/")]⟩

def egTimeEl : Element := ⟨[("datetime", "2020-01-01")]⟩

def egConfig : Config := { shortName := "short", specStatus := "unofficial" }

def egBaseConfig : Config := { shortName := "short", specStatus := "base" }

def egDoc : Document :=
  { uUrl := some egUrlEl, dtPublished := some egTimeEl,
    imgs := [⟨[("src", "pic.png"), ("alt", "cap")]⟩, ⟨[("src", "pic.png"), ("alt", "other")]⟩] }

/-- C1: the final `resources` list of any successfully built manifest is
the deduplication by `url` of the accumulated raw resource list: the
surviving urls are pairwise distinct, the survivors appear in their
insertion order, each survivor is the first-inserted entry with its url
(so it carries the first-seen attributes), and every inserted url is
still represented. -/
theorem resources_deduplicated (config : Config) (d : Document) (m : Manifest)
    (h : create_manifest config d = .ok m) :
    (m.resources.map LinkedResource.url).Nodup ∧
    List.Sublist m.resources (rawResources config d) ∧
    (∀ y ∈ m.resources,
      (rawResources config d).find? (fun x => x.url == y.url) = some y) ∧
    (∀ x ∈ rawResources config d, ∃ y ∈ m.resources, y.url = x.url) := by
  have hm : m.resources = uniq (rawResources config d) := by
    cases hu : d.uUrl with
    | none => rw [create_manifest, hu] at h; cases h
    | some uEl =>
      cases ht : d.dtPublished with
      | none => rw [create_manifest, hu, ht] at h; cases h
      | some tEl =>
        rw [create_manifest, hu, ht] at h
        cases h
        rfl
  rw [hm]
  refine ⟨uniqAux_nodup _ [], uniqAux_sublist _ [],
    fun y hy => (uniqAux_mem_spec _ [] y hy).2, fun x hx => ?_⟩
  rcases uniqAux_covers _ [] x hx with hb | hy
  · cases hb
  · exact hy

/-- Closed instance of `resources_deduplicated` on a document whose two
img elements share the url `pic.png`. -/
theorem resources_deduplicated_witness :
    ((build_manifest egConfig egDoc egUrlEl egTimeEl).resources.map
      LinkedResource.url).Nodup :=
  (resources_deduplicated egConfig egDoc _ rfl).1

/-- C2: for each of the four scanned element kinds, a present, non-empty
reference yields a `LinkedResource` exactly when `is_relative` accepts
it; `is_relative` rejects exactly the references whose first character
is `#` or that start with `http://`, `https://` or `mailto:`; and the
two concrete anchors of the spec produce no resource. -/
theorem scan_relative_iff :
    (∀ e href, e.getAttribute "data" = some href → href ≠ "" →
      ((scanObject e).isSome ↔ is_relative href = true)) ∧
    (∀ e href, e.getAttribute "src" = some href → href ≠ "" →
      ((scanImg e).isSome ↔ is_relative href = true)) ∧
    (∀ e href, e.getAttribute "href" = some href → href ≠ "" →
      ((scanA e).isSome ↔ is_relative href = true)) ∧
    (∀ e href, e.getAttribute "class" ≠ some "remove" →
      e.getAttribute "src" = some href → href ≠ "" →
      ((scanScript e).1.isSome ↔ is_relative href = true)) ∧
    (∀ url, is_relative url = false ↔
      (url.data.head? = some '#' ∨ js_startsWith url "http://" = true ∨
       js_startsWith url "https://" = true ∨ js_startsWith url "mailto:" = true)) ∧
    scanA ⟨[("href", "#frag")]⟩ = none ∧
    scanA ⟨[("href", "https://example.com/x")]⟩ = none := by
  refine ⟨?_, ?_, ?_, ?_, ?_, by decide, by decide⟩
  · intro e href h hne
    cases hr : is_relative href <;> simp [scanObject, h, hne, hr]
  · intro e href h hne
    cases hr : is_relative href <;> simp [scanImg, h, hne, hr]
  · intro e href h hne
    cases hr : is_relative href <;> simp [scanA, h, hne, hr]
  · intro e href hcl h hne
    cases hr : is_relative href <;>
      cases hjs : js_endsWith href ".js" <;>
        simp [scanScript, hcl, h, hne, hr, hjs]
  · intro url
    simp only [is_relative, Bool.not_eq_false', Bool.or_eq_true, beq_iff_eq]
    tauto

/-- Closed instance of `scan_relative_iff`: a relative object reference
produces a resource. -/
theorem scan_relative_iff_witness :
    (scanObject ⟨[("data", "chapter1.html")]⟩).isSome := by
  have h := scan_relative_iff.1 ⟨[("data", "chapter1.html")]⟩ "chapter1.html"
    rfl (by decide)
  exact h.mpr (by decide)

/-- Two suffix patterns that are not suffixes of one another cannot both
be suffixes of the same string. -/
theorem js_endsWith_exclusive {u s₁ s₂ : String}
    (h₁ : js_endsWith u s₁ = true) (h₂ : js_endsWith u s₂ = true)
    (h₁₂ : List.isSuffixOf s₁.data s₂.data = false)
    (h₂₁ : List.isSuffixOf s₂.data s₁.data = false) : False := by
  have hs₁ : List.IsSuffix s₁.data u.data := List.isSuffixOf_iff_suffix.mp h₁
  have hs₂ : List.IsSuffix s₂.data u.data := List.isSuffixOf_iff_suffix.mp h₂
  rcases List.suffix_or_suffix_of_suffix hs₁ hs₂ with h | h
  · rw [List.isSuffixOf_iff_suffix.mpr h] at h₁₂; cases h₁₂
  · rw [List.isSuffixOf_iff_suffix.mpr h] at h₂₁; cases h₂₁

/-- A string ending in `s₂` does not end in an incompatible `s₁`. -/
theorem ends_excl (s₁ : String) {u s₂ : String} (h : js_endsWith u s₂ = true)
    (h₁₂ : List.isSuffixOf s₁.data s₂.data = false)
    (h₂₁ : List.isSuffixOf s₂.data s₁.data = false) :
    js_endsWith u s₁ = false := by
  by_contra hc
  rw [Bool.not_eq_false] at hc
  exact js_endsWith_exclusive hc h h₁₂ h₂₁

/-- `image_type` never produces the empty string, so the JS truthiness
guard on its result is the identity. -/
theorem keepTruthy_image_type (u : String) :
    keepTruthy (image_type u) = image_type u := by
  unfold image_type
  split
  · rfl
  · split
    · rfl
    · split
      · rfl
      · split
        · rfl
        · split
          · rfl
          · split <;> rfl

def egScriptEl : Element := ⟨[("src", "module.mjs"), ("type", "module")]⟩

def egScriptDoc : Document :=
  { uUrl := some egUrlEl, dtPublished := some egTimeEl, scripts := [egScriptEl] }

/-- C3 (code bug): for a kept script whose relative `src` ends in `.js`
the resource does get the fixed script MIME type, but in the other
branch the explicit `type` attribute is written to the manifest object
itself (`manifest.encodingFormat`, `pub.js` line 296) instead of to the
resource being built, so the produced `LinkedResource` carries no
`encodingFormat` and the manifest grows a stray top-level one. -/
theorem script_type_misassigned :
    scanScript egScriptEl = (some { url := "module.mjs" }, some "module") ∧
    (scanScript egScriptEl).1.map LinkedResource.encodingFormat = some none ∧
    (scanScript ⟨[("src", "lib.js")]⟩).1 =
      some { url := "lib.js", encodingFormat := some "application/Javascript" } ∧
    (create_manifest egBaseConfig egScriptDoc).map
      (fun m => (m.encodingFormat,
        (m.resources.filter (fun r => r.url = "module.mjs")).map
          LinkedResource.encodingFormat)) =
      .ok (some "module", [none]) :=
  ⟨rfl, rfl, rfl, rfl⟩

/-- C4 is false as stated: an `img` element carrying an explicit
non-empty `type` attribute still gets its `encodingFormat` by extension
sniffing (`pub.js` line 250 consults only `image_type`). -/
theorem img_type_attribute_ignored :
    (scanImg ⟨[("src", "x.png"), ("type", "text/plain")]⟩).map
        LinkedResource.encodingFormat = some (some "image/png") ∧
    (scanImg ⟨[("src", "x.png"), ("type", "text/plain")]⟩).map
        LinkedResource.encodingFormat ≠ some (some "text/plain") := by
  exact ⟨rfl, by decide⟩

/-- C4 amended: for `object` and `a` elements the `encodingFormat` is
the explicit non-empty `type` attribute when present, else the sniffed
image type; for `img` it is always the sniffed image type, the `type`
attribute being ignored; the sniffing table maps each recognized
extension to its MIME type and yields nothing otherwise. -/
theorem encoding_format_inference :
    (∀ e href t, e.getAttribute "data" = some href → href ≠ "" →
      is_relative href = true → e.getAttribute "type" = some t → t ≠ "" →
      (scanObject e).map LinkedResource.encodingFormat = some (some t)) ∧
    (∀ e href, e.getAttribute "data" = some href → href ≠ "" →
      is_relative href = true → truthy (e.getAttribute "type") = false →
      (scanObject e).map LinkedResource.encodingFormat = some (image_type href)) ∧
    (∀ e href t, e.getAttribute "href" = some href → href ≠ "" →
      is_relative href = true → e.getAttribute "type" = some t → t ≠ "" →
      (scanA e).map LinkedResource.encodingFormat = some (some t)) ∧
    (∀ e href, e.getAttribute "href" = some href → href ≠ "" →
      is_relative href = true → truthy (e.getAttribute "type") = false →
      (scanA e).map LinkedResource.encodingFormat = some (image_type href)) ∧
    (∀ e href, e.getAttribute "src" = some href → href ≠ "" →
      is_relative href = true →
      (scanImg e).map LinkedResource.encodingFormat = some (image_type href)) ∧
    (∀ u, js_endsWith u ".gif" = true → image_type u = some "image/gif") ∧
    (∀ u, js_endsWith u ".png" = true → image_type u = some "image/png") ∧
    (∀ u, js_endsWith u ".bmp" = true → image_type u = some "image/bmp") ∧
    (∀ u, js_endsWith u ".jpg" = true ∨ js_endsWith u ".jpeg" = true →
      image_type u = some "image/jpeg") ∧
    (∀ u, js_endsWith u ".svg" = true → image_type u = some "image/svg+xml") ∧
    (∀ u, js_endsWith u ".pdf" = true → image_type u = some "application/pdf") ∧
    (∀ u, js_endsWith u ".gif" = false → js_endsWith u ".png" = false →
      js_endsWith u ".bmp" = false → js_endsWith u ".jpg" = false →
      js_endsWith u ".jpeg" = false → js_endsWith u ".svg" = false →
      js_endsWith u ".pdf" = false → image_type u = none) := by
  refine ⟨?_, ?_, ?_, ?_, ?_, ?_, ?_, ?_, ?_, ?_, ?_, ?_⟩
  · intro e href t h hne hr ht htne
    simp [scanObject, h, hne, hr, jsOr, keepTruthy, truthy, ht, htne]
  · intro e href h hne hr ht
    simp [scanObject, h, hne, hr, jsOr, ht, keepTruthy_image_type]
  · intro e href t h hne hr ht htne
    simp [scanA, h, hne, hr, jsOr, keepTruthy, truthy, ht, htne]
  · intro e href h hne hr ht
    simp [scanA, h, hne, hr, jsOr, ht, keepTruthy_image_type]
  · intro e href h hne hr
    simp [scanImg, h, hne, hr, keepTruthy_image_type]
  · intro u h
    simp [image_type, h]
  · intro u h
    have h1 := ends_excl ".gif" h (by decide) (by decide)
    simp [image_type, h, h1]
  · intro u h
    have h1 := ends_excl ".gif" h (by decide) (by decide)
    have h2 := ends_excl ".png" h (by decide) (by decide)
    simp [image_type, h, h1, h2]
  · intro u h
    rcases h with h | h
    · have h1 := ends_excl ".gif" h (by decide) (by decide)
      have h2 := ends_excl ".png" h (by decide) (by decide)
      have h3 := ends_excl ".bmp" h (by decide) (by decide)
      simp [image_type, h, h1, h2, h3]
    · have h1 := ends_excl ".gif" h (by decide) (by decide)
      have h2 := ends_excl ".png" h (by decide) (by decide)
      have h3 := ends_excl ".bmp" h (by decide) (by decide)
      simp [image_type, h, h1, h2, h3]
  · intro u h
    have h1 := ends_excl ".gif" h (by decide) (by decide)
    have h2 := ends_excl ".png" h (by decide) (by decide)
    have h3 := ends_excl ".bmp" h (by decide) (by decide)
    have h4 := ends_excl ".jpg" h (by decide) (by decide)
    have h5 := ends_excl ".jpeg" h (by decide) (by decide)
    simp [image_type, h, h1, h2, h3, h4, h5]
  · intro u h
    have h1 := ends_excl ".gif" h (by decide) (by decide)
    have h2 := ends_excl ".png" h (by decide) (by decide)
    have h3 := ends_excl ".bmp" h (by decide) (by decide)
    have h4 := ends_excl ".jpg" h (by decide) (by decide)
    have h5 := ends_excl ".jpeg" h (by decide) (by decide)
    have h6 := ends_excl ".svg" h (by decide) (by decide)
    simp [image_type, h, h1, h2, h3, h4, h5, h6]
  · intro u h1 h2 h3 h4 h5 h6 h7
    simp [image_type, h1, h2, h3, h4, h5, h6, h7]

/-- Closed instance of `encoding_format_inference`: an object element
with an explicit type, and a png-suffixed url. -/
theorem encoding_format_inference_witness :
    (scanObject ⟨[("data", "fig.bin"), ("type", "application/x-fig")]⟩).map
        LinkedResource.encodingFormat = some (some "application/x-fig") ∧
    image_type "pic.png" = some "image/png" :=
  ⟨encoding_format_inference.1 ⟨[("data", "fig.bin"), ("type", "application/x-fig")]⟩
      "fig.bin" "application/x-fig" rfl (by decide) (by decide) rfl (by decide),
    encoding_format_inference.2.2.2.2.2.2.1 "pic.png" (by decide)⟩

/-- C5: any spec status that uppercases to `UNOFFICIAL` makes the
status dispatch contribute exactly three resources: the `W3C-UD`
stylesheet, the `UD.png` logo with `image/png`, and the
`UD-watermark.png` watermark (they are appended to `manifest.resources`
between the baseline and the scanned ones, see `rawResources`). -/
theorem unofficial_status_resources (s : String)
    (h : js_toUpperCase s = "UNOFFICIAL") :
    ∃ r₁ r₂ r₃, statusResources s = [r₁, r₂, r₃] ∧
      js_endsWith r₁.url "W3C-UD" = true ∧ r₁.rel = some "stylesheet" ∧
      r₁.encodingFormat = some "text/css" ∧
      js_endsWith r₂.url "UD.png" = true ∧ r₂.encodingFormat = some "image/png" ∧
      js_endsWith r₃.url "UD-watermark.png" = true := by
  have hd : status_dispatch s =
      { styleFile := some "W3C-UD", logoFile := some "UD.png",
        logoFormat := "image/png", watermark := some "UD-watermark.png" } := by
    simp [status_dispatch, h]
  have hr : statusResources s =
      [{ url := "https://www.w3.org/StyleSheets/TR/2016/W3C-UD",
         rel := some "stylesheet", encodingFormat := some "text/css",
         description := some "CSS file depending on the status of the document" },
       { url := "https://www.w3.org/StyleSheets/TR/2016/logos/UD.png",
         encodingFormat := some "image/png",
         description := some "Sidebar logo reflecting the status of the document" },
       { url := "https://www.w3.org/StyleSheets/TR/2016/logos/UD-watermark.png",
         encodingFormat := some "image/png",
         description := some "Background watermark reflecting the status of the document" }] := by
    simp [statusResources, hd]
  exact ⟨_, _, _, hr, by decide, rfl, rfl, by decide, rfl, by decide⟩

/-- Closed instance of `unofficial_status_resources` at the
mixed-case status `Unofficial`. -/
theorem unofficial_status_resources_witness :
    ∃ r₁ r₂ r₃, statusResources "Unofficial" = [r₁, r₂, r₃] ∧
      js_endsWith r₁.url "W3C-UD" = true ∧ r₁.rel = some "stylesheet" ∧
      r₁.encodingFormat = some "text/css" ∧
      js_endsWith r₂.url "UD.png" = true ∧ r₂.encodingFormat = some "image/png" ∧
      js_endsWith r₃.url "UD-watermark.png" = true :=
  unofficial_status_resources "Unofficial" (by decide)

/-- C6: each present person-list key of the configuration is mapped,
order preserved, to the corresponding manifest field, every person
becoming a Person entry with `name` copied, `id` present exactly when
the person's `url` is, and a nested Organization affiliation carrying
`company` and, when present, `companyURL`; an absent key leaves the
manifest field absent, and the spec's one-person example maps as
announced. -/
theorem person_fields_mapped (config : Config) (d : Document) (m : Manifest)
    (h : create_manifest config d = .ok m) :
    m.editor = config.editors.map (fun ps => ps.map (fun p =>
      { type := "Person", name := p.name, id := p.url,
        affiliation := { type := "Organization", name := p.company,
                         url := p.companyURL } })) ∧
    m.author = config.authors.map (fun ps => ps.map (fun p =>
      { type := "Person", name := p.name, id := p.url,
        affiliation := { type := "Organization", name := p.company,
                         url := p.companyURL } })) ∧
    m.creator = config.creators.map (fun ps => ps.map (fun p =>
      { type := "Person", name := p.name, id := p.url,
        affiliation := { type := "Organization", name := p.company,
                         url := p.companyURL } })) ∧
    (config.editors = none → m.editor = none) ∧
    (config.authors = none → m.author = none) ∧
    (config.creators = none → m.creator = none) ∧
    person_to_entry { name := "A", company := some "C" } =
      { type := "Person", name := "A", id := none,
        affiliation := { type := "Organization", name := some "C",
                         url := none } } := by
  have hb : ∀ uEl tEl, m = build_manifest config d uEl tEl →
      m.editor = config.editors.map (fun ps => ps.map person_to_entry) ∧
      m.author = config.authors.map (fun ps => ps.map person_to_entry) ∧
      m.creator = config.creators.map (fun ps => ps.map person_to_entry) := by
    intro uEl tEl hm
    rw [hm]
    exact ⟨rfl, rfl, rfl⟩
  obtain ⟨he, ha, hc⟩ : m.editor = config.editors.map (fun ps => ps.map person_to_entry) ∧
      m.author = config.authors.map (fun ps => ps.map person_to_entry) ∧
      m.creator = config.creators.map (fun ps => ps.map person_to_entry) := by
    cases hu : d.uUrl with
    | none => rw [create_manifest, hu] at h; cases h
    | some uEl =>
      cases ht : d.dtPublished with
      | none => rw [create_manifest, hu, ht] at h; cases h
      | some tEl =>
        rw [create_manifest, hu, ht] at h
        cases h
        exact hb uEl tEl rfl
  refine ⟨he, ha, hc, ?_, ?_, ?_, rfl⟩
  · intro hn; rw [he, hn]; rfl
  · intro hn; rw [ha, hn]; rfl
  · intro hn; rw [hc, hn]; rfl

def egEditorConfig : Config :=
  { shortName := "short", specStatus := "base",
    editors := some [{ name := "A", company := some "C" }] }

/-- Closed instance of `person_fields_mapped`: the spec's single-editor
example yields exactly the announced Person entry. -/
theorem person_fields_mapped_witness :
    (build_manifest egEditorConfig egDoc egUrlEl egTimeEl).editor =
      some [{ type := "Person", name := "A", id := none,
              affiliation := { type := "Organization", name := some "C",
                               url := none } }] := by
  rw [(person_fields_mapped egEditorConfig egDoc _ rfl).1]
  rfl

/-- C7: the operation succeeds exactly when both required document
markers (the `a.u-url` element and the `time.dt-published` element) are
present; with both present it is total for every configuration and
document, every other absence degrading to an omitted field. -/
theorem fatal_exactly_missing_markers (config : Config) (d : Document) :
    (∃ m, create_manifest config d = .ok m) ↔
      (d.uUrl ≠ none ∧ d.dtPublished ≠ none) := by
  cases hu : d.uUrl <;> cases ht : d.dtPublished <;>
    simp [create_manifest, hu, ht]

/-- Closed instance of `fatal_exactly_missing_markers`: both markers
present gives success, a missing `time.dt-published` aborts. -/
theorem fatal_exactly_missing_markers_witness :
    (∃ m, create_manifest egConfig egDoc = .ok m) ∧
    ¬ (∃ m, create_manifest egConfig { uUrl := some egUrlEl } = .ok m) :=
  ⟨(fatal_exactly_missing_markers egConfig egDoc).mpr ⟨by decide, by decide⟩,
   fun hc => (((fatal_exactly_missing_markers egConfig
      { uUrl := some egUrlEl }).mp hc).2) rfl⟩

def egImgDoc : Document :=
  { uUrl := some egUrlEl, dtPublished := some egTimeEl,
    imgs := [⟨[("src", "pic.png"), ("alt", "cap")]⟩] }

/-- C8: the element `img src="pic.png" alt="cap"` produces the
`LinkedResource` with url `pic.png`, encodingFormat `image/png` and
description `cap`, and that resource reaches the final manifest. -/
theorem img_pic_png_resource :
    scanImg ⟨[("src", "pic.png"), ("alt", "cap")]⟩ =
      some { url := "pic.png", encodingFormat := some "image/png",
             description := some "cap" } ∧
    ∃ m, create_manifest egBaseConfig egImgDoc = .ok m ∧
      ({ url := "pic.png", encodingFormat := some "image/png",
         description := some "cap" } : LinkedResource) ∈ m.resources :=
  ⟨rfl, _, rfl, by decide⟩

/-- C9: the builder is a function of the configuration and the initial
document state, so two runs from the same initial state serialize to
byte-identical manifest text. -/
theorem builder_deterministic (config : Config) (d : Document) (m₁ m₂ : Manifest)
    (h₁ : create_manifest config d = .ok m₁)
    (h₂ : create_manifest config d = .ok m₂) :
    serialize_manifest m₁ = serialize_manifest m₂ := by
  rw [h₁] at h₂
  injection h₂ with h
  rw [h]

/-- Closed instance of `builder_deterministic` on a concrete
configuration and document. -/
theorem builder_deterministic_witness :
    serialize_manifest (build_manifest egConfig egDoc egUrlEl egTimeEl) =
      serialize_manifest (build_manifest egConfig egDoc egUrlEl egTimeEl) :=
  builder_deterministic egConfig egDoc _ _ rfl rfl

/-- C10: an absent or empty reference attribute produces no
`LinkedResource`, and every string on which the scan loops invoke
`is_relative` is non-empty, the JS guard short-circuiting before the
classifier on a falsy attribute value. -/
theorem empty_reference_guarded :
    (∀ e, e.getAttribute "data" = none ∨ e.getAttribute "data" = some "" →
      scanObject e = none) ∧
    (∀ e, e.getAttribute "src" = none ∨ e.getAttribute "src" = some "" →
      scanImg e = none) ∧
    (∀ e, e.getAttribute "href" = none ∨ e.getAttribute "href" = some "" →
      scanA e = none) ∧
    (∀ e, e.getAttribute "src" = none ∨ e.getAttribute "src" = some "" →
      (scanScript e).1 = none) ∧
    (∀ d s, s ∈ classifierCalls d → s ≠ "") := by
  have hofa : ∀ v s, s ∈ classifierCallsOfAttr v → s ≠ "" := by
    intro v s hs
    cases v with
    | none => simp [classifierCallsOfAttr] at hs
    | some href =>
      simp only [classifierCallsOfAttr] at hs
      by_cases he : href = ""
      · rw [if_neg (by simp [he])] at hs
        cases hs
      · rw [if_pos (by simp [he])] at hs
        rw [List.mem_singleton.mp hs]
        exact he
  refine ⟨?_, ?_, ?_, ?_, ?_⟩
  · intro e h
    rcases h with h | h <;> simp [scanObject, h]
  · intro e h
    rcases h with h | h <;> simp [scanImg, h]
  · intro e h
    rcases h with h | h <;> simp [scanA, h]
  · intro e h
    rcases h with h | h <;>
      by_cases hcl : e.getAttribute "class" = some "remove" <;>
        simp [scanScript, hcl, h]
  · intro d s hs
    simp only [classifierCalls, List.mem_append, List.mem_flatMap] at hs
    rcases hs with ((⟨e, _, he⟩ | ⟨e, _, he⟩) | ⟨e, _, he⟩) | ⟨e, _, he⟩ <;>
      exact hofa _ s he

/-- Closed instance of `empty_reference_guarded`: an empty `data`
attribute and an absent `href` attribute both produce nothing. -/
theorem empty_reference_guarded_witness :
    scanObject ⟨[("data", "")]⟩ = none ∧ scanA ⟨[]⟩ = none :=
  ⟨empty_reference_guarded.1 ⟨[("data", "")]⟩ (Or.inr rfl),
   empty_reference_guarded.2.2.1 ⟨[]⟩ (Or.inl rfl)⟩

end Pub
